import Mathlib

/-
Verification development for the Veklo head-tracking audio balancer.

The Python class HeadTrackingAudioBalancer (src/head_track_audio.py) is
shallowly embedded here: its mutable fields become the structure
TrackerState, its methods become pure functions on that state, Python
floats are modelled by exact rationals, Python ints by Lean integers,
and a Python ZeroDivisionError is modelled by an Option result (none).
The tracking loop (track_head) is modelled as a step function driven by
a list of per-iteration inputs (frame outcome, detected face position,
current time, pending command), producing the list of actuator calls it
makes and the final state; the try/finally teardown is appended by
track_head_run.
-/

namespace Veklo

/-- Mutable fields of HeadTrackingAudioBalancer that the core logic
reads or writes.  Positions and times are rationals (Python floats /
ints), balances are integers (0..100 percentages). -/
structure TrackerState where
  running : Bool
  last_balance_update : ℚ
  update_frequency : ℚ
  calibrated : Bool
  calibration_center_x : Option ℚ
  sensitivity : ℚ
  original_system_balance : Option ℤ
  last_face_position : Option ℚ
  use_eqmac : Bool
  use_cartoon_filter : Bool
  deriving Repr, DecidableEq

/-- The state built by the constructor in the source: running, update
frequency 0.2 s, uncalibrated, sensitivity 0.8, no original balance,
no last face position, eqMac mode, cartoon filter on.  The constructor
sets last_balance_update to the current wall-clock time; the model
starts the clock at 0. -/
def initState : TrackerState where
  running := true
  last_balance_update := 0
  update_frequency := 1/5
  calibrated := false
  calibration_center_x := none
  sensitivity := 4/5
  original_system_balance := none
  last_face_position := none
  use_eqmac := true
  use_cartoon_filter := true

/-- Python int() applied to a float: truncation toward zero. -/
def pyInt (q : ℚ) : ℤ :=
  if 0 ≤ q then ⌊q⌋ else ⌈q⌉

/-- The center used by calculate_audio_balance: the calibration center
when calibrated and present, otherwise half the frame width. -/
def centerPosition (st : TrackerState) (frame_width : ℚ) : ℚ :=
  match st.calibrated, st.calibration_center_x with
  | true, some c => c
  | _, _ => frame_width / 2

/-- calculate_audio_balance from the source: offset from the center,
divided by center * sensitivity, clamped to [-1, 1], then negated.
Python raises ZeroDivisionError when the divisor is zero; the model
returns none in that case. -/
def calculate_audio_balance (st : TrackerState) (face_x frame_width : ℚ) :
    Option ℚ :=
  let center_position := centerPosition st frame_width
  let offset := face_x - center_position
  if center_position * st.sensitivity = 0 then none
  else
    let balance := offset / (center_position * st.sensitivity)
    let clamped := max (-1) (min 1 balance)
    some (-clamped)

/-- set_audio_balance converts a balance in [-1, 1] to the 0..100
percentage handed to the actuator backend: int((balance + 1) * 50),
a truncation toward zero. -/
def set_audio_balance (balance : ℚ) : ℤ :=
  pyInt ((balance + 1) * 50)

/-- get_current_system_balance: 50 in eqMac mode (the backend cannot be
queried), otherwise the balance read from the external system mixer.
The external reading is a parameter of the model. -/
def get_current_system_balance (st : TrackerState) (external : ℤ) : ℤ :=
  if st.use_eqmac then 50 else external

/-- calibrate from the source: with an explicit position (or, lacking
one, the last detected position) it stores the center, sets the
calibrated flag and overwrites original_system_balance with the balance
currently reported by get_current_system_balance; with no position
available it is a no-op. -/
def calibrate (st : TrackerState) (face_x : Option ℚ) (external : ℤ) :
    TrackerState :=
  match face_x with
  | some x =>
      { st with calibration_center_x := some x, calibrated := true,
                original_system_balance :=
                  some (get_current_system_balance st external) }
  | none =>
      match st.last_face_position with
      | some p =>
          { st with calibration_center_x := some p, calibrated := true,
                    original_system_balance :=
                      some (get_current_system_balance st external) }
      | none => st

/-- adjust_sensitivity from the source: clamp sensitivity + increment to
[0.2, 2.0]; if the clamped value exceeds 1.9 while the increment is
positive, wrap to 0.2. -/
def adjust_sensitivity (st : TrackerState) (increment : ℚ) : TrackerState :=
  let s := max (1/5) (min 2 (st.sensitivity + increment))
  let s := if 19/10 < s ∧ 0 < increment then 1/5 else s
  { st with sensitivity := s }

/-- The commands the loop can receive, from the terminal thread or the
preview key handler: q, c, s, m, f. -/
inductive Cmd
  | quitCmd
  | calibrateCmd
  | adjustSens
  | toggleMode
  | toggleFilter
  deriving Repr, DecidableEq

/-- Why an iteration of the tracking loop exits. -/
inductive ExitKind
  | externalStop
  | readFailure
  | exception
  | quitKey
  deriving Repr, DecidableEq

/-- The external inputs one loop iteration consumes: wall-clock time,
whether the frame read succeeded, whether the loop body raised an
escaping exception, the detected face center (none when no face),
a pending command, and the system balance an external query would
return at that moment. -/
structure IterInput where
  time : ℚ
  frameOk : Bool
  exn : Bool
  face : Option ℚ
  cmd : Option Cmd
  externalBalance : ℤ
  deriving Repr, DecidableEq

/-- One rate-limited actuator invocation from inside the loop: when it
happened and the percentage passed to the backend. -/
structure BalanceCall where
  time : ℚ
  percentage : ℤ
  deriving Repr, DecidableEq

/-- Externally visible effects of a full run of track_head. -/
inductive Effect
  | setBalance (percentage : ℤ)
  | releaseCamera
  deriving Repr, DecidableEq

/-- The face-processing part of one loop iteration: if a face was
detected, record it as the last position; if more than
update_frequency has elapsed since the last balance update, compute
the balance, invoke the actuator and reset the timer.  A
ZeroDivisionError inside calculate_audio_balance escapes the loop
body (modelled as an exception exit). -/
def faceStep (fw : ℚ) (st : TrackerState) (inp : IterInput) :
    List BalanceCall × TrackerState × Option ExitKind :=
  match inp.face with
  | none => ([], st, none)
  | some x =>
    let st1 := { st with last_face_position := some x }
    if st1.update_frequency < inp.time - st1.last_balance_update then
      match calculate_audio_balance st1 x fw with
      | none => ([], st1, some ExitKind.exception)
      | some b =>
          ([⟨inp.time, set_audio_balance b⟩],
           { st1 with last_balance_update := inp.time }, none)
    else ([], st1, none)

/-- Apply one pending command to the state, as the terminal thread or
key handler would. -/
def applyCmd (st : TrackerState) (inp : IterInput) :
    TrackerState × Option ExitKind :=
  match inp.cmd with
  | none => (st, none)
  | some Cmd.quitCmd => ({ st with running := false }, some ExitKind.quitKey)
  | some Cmd.calibrateCmd => (calibrate st none inp.externalBalance, none)
  | some Cmd.adjustSens => (adjust_sensitivity st (1/10), none)
  | some Cmd.toggleMode => ({ st with use_eqmac := !st.use_eqmac }, none)
  | some Cmd.toggleFilter =>
      ({ st with use_cartoon_filter := !st.use_cartoon_filter }, none)

/-- One iteration of the while loop in track_head: check the running
flag, read the frame, let an exception escape, process the detected
face, then apply a pending command. -/
def runStep (fw : ℚ) (st : TrackerState) (inp : IterInput) :
    List BalanceCall × TrackerState × Option ExitKind :=
  if st.running = false then ([], st, some ExitKind.externalStop)
  else if inp.frameOk = false then ([], st, some ExitKind.readFailure)
  else if inp.exn = true then ([], st, some ExitKind.exception)
  else
    let f := faceStep fw st inp
    match f.2.2 with
    | some e => (f.1, f.2.1, some e)
    | none =>
      let c := applyCmd f.2.1 inp
      (f.1, c.1, c.2)

/-- Run the loop over a finite schedule of iteration inputs, stopping
at the first exit; returns the actuator calls made and the state the
loop leaves behind. -/
def runLoop (fw : ℚ) : TrackerState → List IterInput →
    List BalanceCall × TrackerState
  | st, [] => ([], st)
  | st, inp :: rest =>
    let s := runStep fw st inp
    match s.2.2 with
    | some _ => (s.1, s.2.1)
    | none =>
      let r := runLoop fw s.2.1 rest
      (s.1 ++ r.1, r.2)

/-- The percentage the finally block of track_head sends to the
actuator: the normalized original balance when one was captured,
otherwise neutral 0. -/
def restore_percentage (orig : Option ℤ) : ℤ :=
  match orig with
  | some o => set_audio_balance ((o : ℚ) / 50 - 1)
  | none => set_audio_balance 0

/-- A full run of track_head: the loop body effects, then the finally
block — release the camera, then one actuator call restoring the
original (or neutral) balance.  Every loop exit, clean or not, flows
through this teardown. -/
def track_head_run (fw : ℚ) (st : TrackerState) (inputs : List IterInput) :
    List Effect :=
  let r := runLoop fw st inputs
  (r.1.map fun c => Effect.setBalance c.percentage) ++
    [Effect.releaseCamera,
     Effect.setBalance (restore_percentage r.2.original_system_balance)]

/-- The call times of a list of balance calls each follow the previous
one (starting from last) by strictly more than the gap g. -/
def Separated (g : ℚ) : ℚ → List BalanceCall → Prop
  | _, [] => True
  | last, c :: rest => g < c.time - last ∧ Separated g c.time rest

/-! Helper lemmas shared by the claim theorems. -/

/-- When the divisor is nonzero, calculate_audio_balance returns the
negated clamp of the normalized offset. -/
theorem calculate_audio_balance_eq (st : TrackerState) (x w : ℚ)
    (h : centerPosition st w * st.sensitivity ≠ 0) :
    calculate_audio_balance st x w =
      some (-(max (-1) (min 1
        ((x - centerPosition st w) /
          (centerPosition st w * st.sensitivity))))) := by
  simp [calculate_audio_balance, h]

/-- Truncation of an integer-valued rational is the integer itself. -/
theorem pyInt_intCast (o : ℤ) : pyInt (o : ℚ) = o := by
  unfold pyInt
  split_ifs <;> simp

/-- The normalized original balance converts back to the original
percentage exactly. -/
theorem set_audio_balance_inverse (o : ℤ) :
    set_audio_balance ((o : ℚ) / 50 - 1) = o := by
  have h : ((o : ℚ) / 50 - 1 + 1) * 50 = (o : ℚ) := by
    field_simp
  unfold set_audio_balance
  rw [h, pyInt_intCast]

/-- The teardown percentage is the captured original balance, or 50. -/
theorem restore_percentage_eq (orig : Option ℤ) :
    restore_percentage orig = orig.getD 50 := by
  cases orig with
  | none => norm_num [restore_percentage, set_audio_balance, pyInt]
  | some o => simp [restore_percentage, set_audio_balance_inverse]

/-- Commands do not touch the rate-limit timer. -/
theorem applyCmd_last (st : TrackerState) (inp : IterInput) :
    (applyCmd st inp).1.last_balance_update = st.last_balance_update := by
  rcases hcmd : inp.cmd with _ | c
  · simp [applyCmd, hcmd]
  · cases c
    case calibrateCmd =>
      rcases hl : st.last_face_position with _ | p <;>
        simp [applyCmd, hcmd, calibrate, hl]
    all_goals simp [applyCmd, hcmd, adjust_sensitivity]

/-- Commands do not touch the update interval. -/
theorem applyCmd_freq (st : TrackerState) (inp : IterInput) :
    (applyCmd st inp).1.update_frequency = st.update_frequency := by
  rcases hcmd : inp.cmd with _ | c
  · simp [applyCmd, hcmd]
  · cases c
    case calibrateCmd =>
      rcases hl : st.last_face_position with _ | p <;>
        simp [applyCmd, hcmd, calibrate, hl]
    all_goals simp [applyCmd, hcmd, adjust_sensitivity]

/-- faceStep with no detected face does nothing. -/
theorem faceStep_no_face (fw : ℚ) (st : TrackerState) (inp : IterInput)
    (h : inp.face = none) : faceStep fw st inp = ([], st, none) := by
  unfold faceStep; rw [h]

/-- faceStep with a face but a closed time gate only records the
position. -/
theorem faceStep_gate_closed (fw : ℚ) (st : TrackerState) (inp : IterInput)
    (x : ℚ) (hx : inp.face = some x)
    (hg : ¬ st.update_frequency < inp.time - st.last_balance_update) :
    faceStep fw st inp =
      ([], { st with last_face_position := some x }, none) := by
  unfold faceStep
  rw [hx]
  simp only [if_neg hg]

/-- faceStep with a face, an open gate and a defined balance makes one
actuator call and resets the timer. -/
theorem faceStep_call (fw : ℚ) (st : TrackerState) (inp : IterInput)
    (x b : ℚ) (hx : inp.face = some x)
    (hg : st.update_frequency < inp.time - st.last_balance_update)
    (hb : calculate_audio_balance
      { st with last_face_position := some x } x fw = some b) :
    faceStep fw st inp =
      ([⟨inp.time, set_audio_balance b⟩],
       { st with last_face_position := some x,
                 last_balance_update := inp.time }, none) := by
  unfold faceStep
  rw [hx]
  simp only [if_pos hg, hb]

/-- faceStep with a face, an open gate and an undefined balance
(division by zero) raises. -/
theorem faceStep_raises (fw : ℚ) (st : TrackerState) (inp : IterInput)
    (x : ℚ) (hx : inp.face = some x)
    (hg : st.update_frequency < inp.time - st.last_balance_update)
    (hb : calculate_audio_balance
      { st with last_face_position := some x } x fw = none) :
    faceStep fw st inp =
      ([], { st with last_face_position := some x },
       some ExitKind.exception) := by
  unfold faceStep
  rw [hx]
  simp only [if_pos hg, hb]

/-- runStep when the running flag is up, the frame read succeeds and no
exception escapes: face processing then command application. -/
theorem runStep_eq (fw : ℚ) (st : TrackerState) (inp : IterInput)
    (h1 : st.running = true) (h2 : inp.frameOk = true)
    (h3 : inp.exn = false) :
    runStep fw st inp =
      (match (faceStep fw st inp).2.2 with
       | some e => ((faceStep fw st inp).1, (faceStep fw st inp).2.1, some e)
       | none =>
         ((faceStep fw st inp).1,
          (applyCmd (faceStep fw st inp).2.1 inp).1,
          (applyCmd (faceStep fw st inp).2.1 inp).2)) := by
  unfold runStep
  rw [h1, h2, h3]
  simp only [Bool.true_eq_false, Bool.false_eq_true, if_false]

/-- Each loop iteration either makes no actuator call and keeps the
timer, or makes exactly one call at a time exceeding the previous
timer value by more than update_frequency and resets the timer to
that time; the update interval never changes. -/
theorem runStep_calls (fw : ℚ) (st : TrackerState) (inp : IterInput) :
    ((runStep fw st inp).1 = [] ∧
     (runStep fw st inp).2.1.last_balance_update = st.last_balance_update ∧
     (runStep fw st inp).2.1.update_frequency = st.update_frequency) ∨
    (∃ c : BalanceCall, (runStep fw st inp).1 = [c] ∧
     st.update_frequency < c.time - st.last_balance_update ∧
     (runStep fw st inp).2.1.last_balance_update = c.time ∧
     (runStep fw st inp).2.1.update_frequency = st.update_frequency) := by
  cases h1 : st.running with
  | false => left; simp [runStep, h1]
  | true =>
  cases h2 : inp.frameOk with
  | false => left; simp [runStep, h1, h2]
  | true =>
  cases h3 : inp.exn with
  | true => left; simp [runStep, h1, h2, h3]
  | false =>
  rw [runStep_eq fw st inp h1 h2 h3]
  rcases hf : inp.face with _ | x
  · rw [faceStep_no_face fw st inp hf]
    left
    exact ⟨rfl, applyCmd_last st inp, applyCmd_freq st inp⟩
  · by_cases hg : st.update_frequency < inp.time - st.last_balance_update
    · rcases hb : calculate_audio_balance
        { st with last_face_position := some x } x fw with _ | b
      · rw [faceStep_raises fw st inp x hf hg hb]
        left
        exact ⟨rfl, rfl, rfl⟩
      · rw [faceStep_call fw st inp x b hf hg hb]
        right
        refine ⟨⟨inp.time, set_audio_balance b⟩, rfl, hg, ?_, ?_⟩
        · rw [applyCmd_last]
        · rw [applyCmd_freq]
    · rw [faceStep_gate_closed fw st inp x hf hg]
      left
      refine ⟨rfl, ?_, ?_⟩
      · rw [applyCmd_last]
      · rw [applyCmd_freq]

/-- An iteration with no detected face, or whose time gate has not
elapsed, makes no actuator call and leaves the timer unchanged. -/
theorem runStep_gate (fw : ℚ) (st : TrackerState) (inp : IterInput)
    (h : inp.face = none ∨
      ¬ (st.update_frequency < inp.time - st.last_balance_update)) :
    (runStep fw st inp).1 = [] ∧
    (runStep fw st inp).2.1.last_balance_update = st.last_balance_update := by
  cases h1 : st.running with
  | false => constructor <;> simp [runStep, h1]
  | true =>
  cases h2 : inp.frameOk with
  | false => constructor <;> simp [runStep, h1, h2]
  | true =>
  cases h3 : inp.exn with
  | true => constructor <;> simp [runStep, h1, h2, h3]
  | false =>
    rw [runStep_eq fw st inp h1 h2 h3]
    rcases hf : inp.face with _ | x
    · rw [faceStep_no_face fw st inp hf]
      exact ⟨rfl, applyCmd_last st inp⟩
    · rcases h with hface | hgate
      · rw [hf] at hface; exact absurd hface (Option.some_ne_none x)
      · rw [faceStep_gate_closed fw st inp x hf hgate]
        exact ⟨rfl, by rw [applyCmd_last]⟩

/-- An empty call list is separated. -/
theorem separated_nil (g last : ℚ) : Separated g last [] := by
  simp [Separated]

/-- Unfolding a separated call list one call at a time. -/
theorem separated_cons (g last : ℚ) (c : BalanceCall)
    (rest : List BalanceCall) :
    Separated g last (c :: rest) ↔
      (g < c.time - last ∧ Separated g c.time rest) := by
  simp [Separated]

/-- Along any run of the loop, successive actuator calls are separated
by strictly more than the update interval, counted from the initial
timer value. -/
theorem runLoop_separated (fw g : ℚ) :
    ∀ (inputs : List IterInput) (st : TrackerState),
      st.update_frequency = g →
      Separated g st.last_balance_update (runLoop fw st inputs).1 := by
  intro inputs
  induction inputs with
  | nil => intro st _; exact separated_nil g _
  | cons inp rest ih =>
    intro st hst
    rcases runStep_calls fw st inp with ⟨hc, hl, hfreq⟩ | ⟨c, hc, hgap, hl, hfreq⟩
    · cases hex : (runStep fw st inp).2.2 with
      | none =>
        have hrec := ih (runStep fw st inp).2.1 (hfreq.trans hst)
        rw [hl] at hrec
        simpa [runLoop, hex, hc] using hrec
      | some e =>
        simp only [runLoop, hex]
        rw [hc]
        exact separated_nil g _
    · cases hex : (runStep fw st inp).2.2 with
      | none =>
        have hrec := ih (runStep fw st inp).2.1 (hfreq.trans hst)
        rw [hl] at hrec
        simp only [runLoop, hex]
        rw [hc, List.singleton_append, separated_cons]
        exact ⟨hst ▸ hgap, hrec⟩
      | some e =>
        simp only [runLoop, hex]
        rw [hc, separated_cons]
        exact ⟨hst ▸ hgap, separated_nil g _⟩

/-- A separated, time-bounded call list is short: its length times the
gap is less than the available span. -/
theorem separated_length (g : ℚ) :
    ∀ (calls : List BalanceCall) (t0 B : ℚ),
      Separated g t0 calls → (∀ c ∈ calls, c.time ≤ B) →
      calls = [] ∨ (calls.length : ℚ) * g < B - t0 := by
  intro calls
  induction calls with
  | nil => intro t0 B _ _; left; rfl
  | cons c rest ih =>
    intro t0 B hsep hB
    right
    obtain ⟨hgap, hsep2⟩ := (separated_cons g t0 c rest).mp hsep
    have hcB : c.time ≤ B := hB c (List.mem_cons_self c rest)
    rcases ih c.time B hsep2
        (fun d hd => hB d (List.mem_cons_of_mem _ hd)) with hnil | hlt
    · subst hnil
      simp only [List.length_cons, List.length_nil]
      push_cast
      linarith
    · have hcast : (((c :: rest).length : ℕ) : ℚ) = (rest.length : ℚ) + 1 := by
        push_cast [List.length_cons]; ring
      rw [hcast]
      nlinarith [hlt, hgap]

/-- At most five calls separated by more than a fifth of a second fit
into any one-second window. -/
theorem separated_window (calls : List BalanceCall) (t0 a : ℚ)
    (hsep : Separated (1/5) t0 calls)
    (hin : ∀ c ∈ calls, a ≤ c.time ∧ c.time ≤ a + 1) :
    calls.length ≤ 5 := by
  cases calls with
  | nil => simp
  | cons c rest =>
    obtain ⟨_, hsep2⟩ := (separated_cons _ t0 c rest).mp hsep
    have h1 : a ≤ c.time := (hin c (List.mem_cons_self c rest)).1
    rcases separated_length (1/5) rest c.time (a + 1) hsep2
        (fun d hd => (hin d (List.mem_cons_of_mem _ hd)).2) with hnil | hlt
    · subst hnil; simp
    · have h5 : (rest.length : ℚ) < 5 := by linarith
      have : rest.length < 5 := by exact_mod_cast h5
      simp only [List.length_cons]
      omega

/-! Claim theorems. -/

/-- C9: with default sensitivity 0.8, an uncalibrated call at x = 420,
frame width 640 uses center 320 and returns exactly -0.390625; after
calibrating at x = 420 a face at x = 520 returns exactly -125/420. -/
theorem c9_numeric_scenarios :
    calculate_audio_balance initState 420 640 = some (-0.390625) ∧
    calculate_audio_balance (calibrate initState (some 420) 50) 520 640 =
      some (-(125/420)) := by
  constructor <;>
    norm_num [calculate_audio_balance, centerPosition, calibrate, initState,
      min_def, max_def]

/-- C3 counterexample: at signal s = 1/3 the code passes percentage
int((s+1)*50) = 66 to the actuator, while the nearest integer to
(s+1)*50 = 200/3 is 67, so the percentage is not round((s+1)*50). -/
theorem c3_counterexample :
    set_audio_balance (1/3) = 66 ∧
    round (((1 : ℚ)/3 + 1) * 50) = 67 ∧ (66 : ℤ) ≠ 67 := by
  refine ⟨by norm_num [set_audio_balance, pyInt], ?_, by norm_num⟩
  rw [round_eq]
  norm_num

/-- C3 amended: for every balance signal s in [-1, 1] the integer
percentage passed to the actuator by set_audio_balance equals
⌊(s + 1) * 50⌋, the truncation (floor, since the product is
nonnegative) of (s + 1) * 50, not its rounding. -/
theorem c3_percentage_floor (s : ℚ) (h1 : -1 ≤ s) (h2 : s ≤ 1) :
    set_audio_balance s = ⌊(s + 1) * 50⌋ := by
  unfold set_audio_balance pyInt
  rw [if_pos (by nlinarith : (0 : ℚ) ≤ (s + 1) * 50)]

/-- C3 amended, instantiated at s = 1/3. -/
theorem c3_percentage_floor_witness :
    set_audio_balance (1/3) = ⌊((1 : ℚ)/3 + 1) * 50⌋ :=
  c3_percentage_floor (1/3) (by norm_num) (by norm_num)

/-- C4 counterexample: two successful calibrations in system-audio
mode, with external balances 70 then 30: both succeed, the first
captures 70, and the second overwrites original_system_balance with
30, so it does not stay at the value captured first. -/
theorem c4_counterexample :
    (calibrate { initState with use_eqmac := false }
        (some 100) 70).calibrated = true ∧
    (calibrate { initState with use_eqmac := false }
        (some 100) 70).original_system_balance = some 70 ∧
    (calibrate (calibrate { initState with use_eqmac := false }
        (some 100) 70) (some 200) 30).calibrated = true ∧
    (calibrate (calibrate { initState with use_eqmac := false }
        (some 100) 70) (some 200) 30).original_system_balance = some 30 ∧
    (some (30 : ℤ) ≠ some 70) := by
  refine ⟨?_, ?_, ?_, ?_, by norm_num⟩ <;>
    simp [calibrate, get_current_system_balance, initState]

/-- C4 amended: every successful calibrate — not only the first —
overwrites original_system_balance with the balance the actuator
currently reports; an unsuccessful calibrate (no position available)
changes nothing. -/
theorem c4_recapture (st : TrackerState) (x : ℚ) (ext : ℤ) :
    (calibrate st (some x) ext).original_system_balance =
      some (get_current_system_balance st ext) ∧
    (∀ p, st.last_face_position = some p →
      (calibrate st none ext).original_system_balance =
        some (get_current_system_balance st ext)) ∧
    (st.last_face_position = none → calibrate st none ext = st) := by
  refine ⟨by simp [calibrate], fun p hp => ?_, fun hn => ?_⟩
  · simp [calibrate, hp]
  · simp [calibrate, hn]

/-- C4 amended, instantiated: a position-free calibrate with a stored
last position captures the currently reported balance. -/
theorem c4_recapture_witness :
    (calibrate { initState with last_face_position := some 5 }
        none 70).original_system_balance =
      some (get_current_system_balance
        { initState with last_face_position := some 5 } 70) :=
  (c4_recapture { initState with last_face_position := some 5 } 0 70).2.1
    5 rfl

/-- C8: after a successful calibrate at a position x > 0, the balance
computed for a face at exactly x is exactly 0, for every frame width
and every sensitivity in [0.2, 2.0]. -/
theorem c8_calibrated_center_zero (st : TrackerState) (x w : ℚ) (ext : ℤ)
    (hx : 0 < x) (hs1 : 1/5 ≤ st.sensitivity) (hs2 : st.sensitivity ≤ 2) :
    calculate_audio_balance (calibrate st (some x) ext) x w = some 0 := by
  have hs : (0 : ℚ) < st.sensitivity := lt_of_lt_of_le (by norm_num) hs1
  have hd : x * st.sensitivity ≠ 0 := ne_of_gt (mul_pos hx hs)
  simp [calibrate, calculate_audio_balance, centerPosition, hd,
    min_def, max_def]

/-- C8 instantiated: calibrate at 420, face at 420, frame width 640,
default sensitivity 0.8. -/
theorem c8_calibrated_center_zero_witness :
    calculate_audio_balance (calibrate initState (some 420) 50) 420 640 =
      some 0 :=
  c8_calibrated_center_zero initState 420 640 50 (by norm_num)
    (by norm_num [initState]) (by norm_num [initState])

/-- C1: whenever calculate_audio_balance is defined it returns a value
in [-1, 1], and because the clamp precedes the sign inversion both
bounds -1 and +1 are attained, symmetrically. -/
theorem c1_balance_range (st : TrackerState) (w : ℚ)
    (hs1 : 1/5 ≤ st.sensitivity) (hs2 : st.sensitivity ≤ 2)
    (hc : centerPosition st w * st.sensitivity ≠ 0) :
    (∀ x b, calculate_audio_balance st x w = some b → -1 ≤ b ∧ b ≤ 1) ∧
    (∃ x, calculate_audio_balance st x w = some (-1)) ∧
    (∃ x, calculate_audio_balance st x w = some 1) := by
  refine ⟨fun x b hb => ?_,
    ⟨centerPosition st w + centerPosition st w * st.sensitivity, ?_⟩,
    ⟨centerPosition st w - centerPosition st w * st.sensitivity, ?_⟩⟩
  · rw [calculate_audio_balance_eq st x w hc] at hb
    have e := (Option.some.inj hb).symm
    have hcl1 : max (-1 : ℚ) (min 1 ((x - centerPosition st w) /
        (centerPosition st w * st.sensitivity))) ≤ 1 :=
      max_le (by norm_num) (min_le_left _ _)
    have hcl2 : (-1 : ℚ) ≤ max (-1) (min 1 ((x - centerPosition st w) /
        (centerPosition st w * st.sensitivity))) := le_max_left _ _
    constructor <;> rw [e] <;> linarith
  · rw [calculate_audio_balance_eq _ _ _ hc,
      (by ring : centerPosition st w + centerPosition st w * st.sensitivity -
        centerPosition st w = centerPosition st w * st.sensitivity),
      div_self hc]
    norm_num
  · rw [calculate_audio_balance_eq _ _ _ hc,
      (by ring : centerPosition st w - centerPosition st w * st.sensitivity -
        centerPosition st w = -(centerPosition st w * st.sensitivity)),
      neg_div, div_self hc]
    norm_num [min_def, max_def]

/-- C1 instantiated: in the default uncalibrated state with frame width
640 both extreme balances -1 and +1 are produced by some face position. -/
theorem c1_balance_range_witness :
    (∃ x, calculate_audio_balance initState x 640 = some (-1)) ∧
    (∃ x, calculate_audio_balance initState x 640 = some 1) :=
  ⟨(c1_balance_range initState 640 (by norm_num [initState])
      (by norm_num [initState])
      (by norm_num [centerPosition, initState])).2.1,
   (c1_balance_range initState 640 (by norm_num [initState])
      (by norm_num [initState])
      (by norm_num [centerPosition, initState])).2.2⟩

/-- C10: calculate_audio_balance has no zero guard: after calibrate(0),
or uncalibrated with frame width 0, the effective center is 0 and the
call raises (none); with a nonzero effective center and sensitivity in
[0.2, 2.0] it is total. -/
theorem c10_zero_center_partiality :
    (∀ (st : TrackerState) (x w : ℚ) (ext : ℤ),
      calculate_audio_balance (calibrate st (some 0) ext) x w = none) ∧
    (∀ (st : TrackerState) (x : ℚ), st.calibrated = false →
      calculate_audio_balance st x 0 = none) ∧
    (∀ (st : TrackerState) (x w : ℚ), centerPosition st w ≠ 0 →
      1/5 ≤ st.sensitivity → st.sensitivity ≤ 2 →
      ∃ b, calculate_audio_balance st x w = some b) := by
  refine ⟨fun st x w ext => ?_, fun st x hcal => ?_,
    fun st x w hc hs1 hs2 => ?_⟩
  · simp [calibrate, calculate_audio_balance, centerPosition]
  · simp [calculate_audio_balance, centerPosition, hcal]
  · have hd : centerPosition st w * st.sensitivity ≠ 0 :=
      mul_ne_zero hc (ne_of_gt (lt_of_lt_of_le (by norm_num) hs1))
    exact ⟨_, calculate_audio_balance_eq st x w hd⟩

/-- C10 instantiated: calibrating at 0 makes the next balance call
raise, while the default state with frame width 640 is well-defined. -/
theorem c10_zero_center_partiality_witness :
    calculate_audio_balance (calibrate initState (some 0) 50) 100 640 =
      none ∧
    (∃ b, calculate_audio_balance initState 100 640 = some b) :=
  ⟨c10_zero_center_partiality.1 initState 100 640 50,
   c10_zero_center_partiality.2.2 initState 100 640
     (by norm_num [centerPosition, initState]) (by norm_num [initState])
     (by norm_num [initState])⟩

/-- C5: from any sensitivity in [0.2, 2.0], adjust_sensitivity stays in
[0.2, 2.0]; it computes the clamp of sensitivity + delta to that range,
wrapping to exactly 0.2 when the clamped value exceeds 1.9 with a
positive delta, and otherwise (in particular for every decrement) just
clamping. -/
theorem c5_sensitivity_clamp_wrap (st : TrackerState) (d : ℚ)
    (h1 : 1/5 ≤ st.sensitivity) (h2 : st.sensitivity ≤ 2) :
    (1/5 ≤ (adjust_sensitivity st d).sensitivity ∧
     (adjust_sensitivity st d).sensitivity ≤ 2) ∧
    (19/10 < max (1/5) (min 2 (st.sensitivity + d)) ∧ 0 < d →
      (adjust_sensitivity st d).sensitivity = 1/5) ∧
    (¬ (19/10 < max (1/5) (min 2 (st.sensitivity + d)) ∧ 0 < d) →
      (adjust_sensitivity st d).sensitivity =
        max (1/5) (min 2 (st.sensitivity + d))) := by
  by_cases hcond : 19/10 < max (1/5) (min 2 (st.sensitivity + d)) ∧ 0 < d
  · have he : (adjust_sensitivity st d).sensitivity = 1/5 := by
      simp only [adjust_sensitivity]
      rw [if_pos hcond]
    exact ⟨⟨by rw [he], by rw [he]; norm_num⟩, fun _ => he,
      fun hn => absurd hcond hn⟩
  · have he : (adjust_sensitivity st d).sensitivity =
        max (1/5) (min 2 (st.sensitivity + d)) := by
      simp only [adjust_sensitivity]
      rw [if_neg hcond]
    refine ⟨⟨?_, ?_⟩, fun hcc => absurd hcc hcond, fun _ => he⟩
    · rw [he]; exact le_max_left _ _
    · rw [he]; exact max_le (by norm_num) (min_le_left _ _)

/-- C5 instantiated: incrementing from 1.9 by the default 0.1 clamps to
2.0, which exceeds 1.9, so the sensitivity wraps to exactly 0.2. -/
theorem c5_sensitivity_clamp_wrap_witness :
    (adjust_sensitivity { initState with sensitivity := 19/10 }
      (1/10)).sensitivity = 1/5 :=
  (c5_sensitivity_clamp_wrap { initState with sensitivity := 19/10 }
      (1/10) (by norm_num) (by norm_num)).2.1
    (by constructor <;> norm_num [min_def, max_def])

/-- C7: for a fixed state with positive effective center and
sensitivity in [0.2, 2.0], the balance is non-increasing in the face
position, and equal balances at distinct positions occur only at the
saturated values -1 and +1. -/
theorem c7_monotone_balance (st : TrackerState) (w x1 x2 b1 b2 : ℚ)
    (hc : 0 < centerPosition st w)
    (hs1 : 1/5 ≤ st.sensitivity) (hs2 : st.sensitivity ≤ 2)
    (hx : x1 ≤ x2)
    (h1 : calculate_audio_balance st x1 w = some b1)
    (h2 : calculate_audio_balance st x2 w = some b2) :
    b2 ≤ b1 ∧ (x1 < x2 → b1 = b2 → b1 = -1 ∨ b1 = 1) := by
  have hs : (0 : ℚ) < st.sensitivity := lt_of_lt_of_le (by norm_num) hs1
  have hD : 0 < centerPosition st w * st.sensitivity := mul_pos hc hs
  have hDne : centerPosition st w * st.sensitivity ≠ 0 := ne_of_gt hD
  rw [calculate_audio_balance_eq st x1 w hDne] at h1
  rw [calculate_audio_balance_eq st x2 w hDne] at h2
  have e1 := (Option.some.inj h1).symm
  have e2 := (Option.some.inj h2).symm
  set D := centerPosition st w * st.sensitivity with hDdef
  set r1 := (x1 - centerPosition st w) / D with hr1def
  set r2 := (x2 - centerPosition st w) / D with hr2def
  have hr_le : r1 ≤ r2 := by
    rw [hr1def, hr2def]
    exact (div_le_div_iff_of_pos_right hD).mpr (by linarith)
  have hmin : min (1 : ℚ) r1 ≤ min 1 r2 := min_le_min le_rfl hr_le
  have hmax : max (-1 : ℚ) (min 1 r1) ≤ max (-1) (min 1 r2) :=
    max_le_max le_rfl hmin
  constructor
  · rw [e1, e2]; linarith
  · intro hlt heq
    have hrlt : r1 < r2 := by
      rw [hr1def, hr2def]
      exact (div_lt_div_iff_of_pos_right hD).mpr (by linarith)
    have hclamp_eq : max (-1 : ℚ) (min 1 r1) = max (-1) (min 1 r2) := by
      rw [e1, e2] at heq
      linarith [heq]
    by_cases ha : r1 < -1
    · right
      have hm1 : min (1 : ℚ) r1 = r1 := min_eq_right (by linarith)
      have hmx1 : max (-1 : ℚ) (min 1 r1) = -1 := by
        rw [hm1]; exact max_eq_left (by linarith)
      rw [e1, hmx1]; norm_num
    · push_neg at ha
      by_cases hb : 1 < r2
      · left
        have hm2 : min (1 : ℚ) r2 = 1 := min_eq_left (by linarith)
        have hmx2 : max (-1 : ℚ) (min 1 r2) = 1 := by rw [hm2]; norm_num
        rw [e1, hclamp_eq, hmx2]
      · push_neg at hb
        exfalso
        have hm1 : min (1 : ℚ) r1 = r1 := min_eq_right (by linarith)
        have hm2 : min (1 : ℚ) r2 = r2 := min_eq_right hb
        have hmx1 : max (-1 : ℚ) (min 1 r1) = r1 := by
          rw [hm1]; exact max_eq_right ha
        have hmx2 : max (-1 : ℚ) (min 1 r2) = r2 := by
          rw [hm2]; exact max_eq_right (by linarith)
        rw [hmx1, hmx2] at hclamp_eq
        linarith

/-- C7 instantiated: in the default state with frame width 640, moving
from x = 300 to x = 400 does not increase the balance. -/
theorem c7_monotone_balance_witness :
    (-(5/16) : ℚ) ≤ 5/64 :=
  (c7_monotone_balance initState 640 300 400 (5/64) (-(5/16))
    (by norm_num [centerPosition, initState])
    (by norm_num [initState]) (by norm_num [initState]) (by norm_num)
    (by norm_num [calculate_audio_balance, centerPosition, initState,
      min_def, max_def])
    (by norm_num [calculate_audio_balance, centerPosition, initState,
      min_def, max_def])).1

/-- C2: every run of track_head ends with the camera release followed
by exactly one actuator call; that call restores the captured
original_system_balance exactly (the percentage round-trips through
the -1..1 normalization), or sets neutral percentage 50 when no
calibration ever captured a balance.  No release happens earlier in
the trace. -/
theorem c2_teardown_restores (fw : ℚ) (st : TrackerState)
    (inputs : List IterInput) :
    track_head_run fw st inputs =
      ((runLoop fw st inputs).1.map fun c => Effect.setBalance c.percentage)
        ++ [Effect.releaseCamera,
            Effect.setBalance
              (((runLoop fw st inputs).2.original_system_balance).getD 50)] ∧
    Effect.releaseCamera ∉
      ((runLoop fw st inputs).1.map fun c =>
        Effect.setBalance c.percentage) := by
  constructor
  · unfold track_head_run
    simp only []
    rw [restore_percentage_eq]
  · simp

/-- C6: along any run of the loop with the update interval at its 0.2 s
value, successive actuator calls are separated by strictly more than
0.2 s, at most 5 calls fall inside any window of length 1, and an
iteration with no face or an unexpired interval makes no actuator call
and does not reset the timer. -/
theorem c6_rate_limit (fw : ℚ) (st : TrackerState) (inputs : List IterInput)
    (hf : st.update_frequency = 1/5) :
    Separated (1/5) st.last_balance_update (runLoop fw st inputs).1 ∧
    (∀ a : ℚ, (∀ c ∈ (runLoop fw st inputs).1,
        a ≤ c.time ∧ c.time ≤ a + 1) →
      (runLoop fw st inputs).1.length ≤ 5) ∧
    (∀ inp : IterInput,
      inp.face = none ∨
        ¬ (st.update_frequency < inp.time - st.last_balance_update) →
      (runStep fw st inp).1 = [] ∧
      (runStep fw st inp).2.1.last_balance_update =
        st.last_balance_update) := by
  have hsep := runLoop_separated fw (1/5) inputs st hf
  exact ⟨hsep, fun a ha => separated_window _ _ a hsep ha,
    fun inp h => runStep_gate fw st inp h⟩

/-- C6 instantiated: two frames with faces at t = 0.3 s and t = 0.6 s
from the initial state trigger at most the permitted number of
actuator calls in the window [0, 1]. -/
theorem c6_rate_limit_witness :
    (runLoop 640 initState
      [⟨3/10, true, false, some 400, none, 50⟩,
       ⟨6/10, true, false, some 300, none, 50⟩]).1.length ≤ 5 :=
  (c6_rate_limit 640 initState
      [⟨3/10, true, false, some 400, none, 50⟩,
       ⟨6/10, true, false, some 300, none, 50⟩] rfl).2.1 0
    (by norm_num [runLoop, runStep, faceStep, applyCmd, initState,
      calculate_audio_balance, centerPosition, min_def, max_def])

end Veklo
